import Mathlib

/-!
Verification of the Chronos attendance system core: the shift
reconstruction algorithm (`calculateShifts` in the admin view) and the
geofence evaluation (`getDistance` and the GPS status logic of the clock
view). The TypeScript source is shallowly embedded: event records become
a Lean structure, the `lastIn` object becomes a map from employee ids to
optional events, JS numbers holding millisecond epoch times become `Int`
(timestamps are stored as strings and compared through
`new Date(t).getTime()`; the precondition of valid, comparable
timestamps lets us carry the parsed millisecond value directly), and the
float arithmetic of durations and distances becomes exact `ℚ` / `ℝ`
arithmetic.
-/

namespace Chronos

/-- The event kind, `type: 'IN' | 'OUT'` in the source. -/
inductive EventType where
  | IN
  | OUT
deriving DecidableEq, Repr

/-- One attendance record, the `AttendanceLog` interface of the source.
`timestamp` is the millisecond epoch value `new Date(t).getTime()` of
the stored timestamp string; latitude and longitude are carried as
rationals (they play no role in shift reconstruction). -/
structure AttendanceLog where
  id : Int
  employee_id : String
  employee_name : String
  timestamp : Int
  type : EventType
  latitude : ℚ
  longitude : ℚ
  photo_path : String
  gps_status : String
deriving DecidableEq, Repr

/-- A reconstructed shift. The source pushes a record with fields
`employee` (the OUT event employee_name), `date`, `in`, `out` (locale
renderings of the paired event timestamps), `hours` (shown via
toFixed(2)) and `isOvertime`. We keep the two paired events themselves,
of which `date`, `in` and `out` are pure renderings, and the exact
rational value of the `hours` variable that the overtime test reads. -/
structure Shift where
  employee : String
  inEvent : AttendanceLog
  outEvent : AttendanceLog
  hours : ℚ
  isOvertime : Bool
deriving DecidableEq, Repr

/-- Builds the shift pushed for a matched pair: `durationMs` is the
timestamp difference, `hours = durationMs / (1000 * 60 * 60)`, and
`isOvertime = hours > 8`. -/
def mkShift (inLog log : AttendanceLog) : Shift :=
  let durationMs : ℚ := (log.timestamp : ℚ) - (inLog.timestamp : ℚ)
  let hours : ℚ := durationMs / (1000 * 60 * 60)
  { employee := log.employee_name
    inEvent := inLog
    outEvent := log
    hours := hours
    isOvertime := decide (hours > 8) }

/-- The linear scan of `sortedLogs.forEach` in `calculateShifts`: the
`lastIn` object keyed by employee_id is a map `String → Option
AttendanceLog`. An IN event overwrites the entry for its employee; an
OUT event with a pending IN emits a shift and deletes the entry; an OUT
event without a pending IN is skipped. The returned list is in emission
(push) order. -/
def scanLogs : List AttendanceLog → (String → Option AttendanceLog) → List Shift
  | [], _ => []
  | log :: rest, lastIn =>
    match log.type with
    | EventType.IN =>
      scanLogs rest (fun k => if k = log.employee_id then some log else lastIn k)
    | EventType.OUT =>
      match lastIn log.employee_id with
      | some inLog =>
        mkShift inLog log ::
          scanLogs rest (fun k => if k = log.employee_id then none else lastIn k)
      | none => scanLogs rest lastIn

/-- Ascending timestamp order, the comparator
`(a, b) => new Date(a.timestamp).getTime() - new Date(b.timestamp).getTime()`. -/
def tsLE (a b : AttendanceLog) : Prop := a.timestamp ≤ b.timestamp

instance : DecidableRel tsLE :=
  fun a b => inferInstanceAs (Decidable (a.timestamp ≤ b.timestamp))

instance : IsTotal AttendanceLog tsLE :=
  ⟨fun a b => le_total a.timestamp b.timestamp⟩

instance : IsTrans AttendanceLog tsLE :=
  ⟨fun _ _ _ h1 h2 => le_trans h1 h2⟩

/-- `calculateShifts` of the admin view: copy the logs, sort the copy by
timestamp ascending (JS Array.prototype.sort is a stable sort, modelled
by stable insertion sort), scan it pairing IN/OUT per employee, and
return the accumulated shifts reversed. -/
def calculateShifts (logs : List AttendanceLog) : List Shift :=
  let sortedLogs := List.insertionSort tsLE logs
  (scanLogs sortedLogs (fun _ => none)).reverse

/-! ### The geofence evaluator

`getDistance` and the GPS status handling of `ClockView`, over `ℝ`
(the float arithmetic idealized as real arithmetic). -/

/-- Math.atan2: the angle of the point (x, y), matching the JS
definition branch by branch. In this development it is only ever
evaluated on the positive x-axis. -/
noncomputable def atan2 (y x : ℝ) : ℝ :=
  if 0 < x then Real.arctan (y / x)
  else if x < 0 then
    (if 0 ≤ y then Real.arctan (y / x) + Real.pi
     else Real.arctan (y / x) - Real.pi)
  else
    (if 0 < y then Real.pi / 2
     else if y < 0 then -(Real.pi / 2)
     else 0)

/-- The haversine great-circle distance in meters of the source
(`getDistance`), on a sphere of radius 6371e3 meters. -/
noncomputable def getDistance (lat1 lon1 lat2 lon2 : ℝ) : ℝ :=
  let R : ℝ := 6371e3
  let φ1 := lat1 * Real.pi / 180
  let φ2 := lat2 * Real.pi / 180
  let Δφ := (lat2 - lat1) * Real.pi / 180
  let Δlam := (lon2 - lon1) * Real.pi / 180
  let a := Real.sin (Δφ / 2) * Real.sin (Δφ / 2) +
    Real.cos φ1 * Real.cos φ2 * Real.sin (Δlam / 2) * Real.sin (Δlam / 2)
  let c := 2 * atan2 (Real.sqrt a) (Real.sqrt (1 - a))
  R * c

/-- An office coordinate pair, `OFFICE_COORDS` in the source. -/
structure Coords where
  lat : ℝ
  lng : ℝ

/-- The configured office location (London example). -/
noncomputable def OFFICE_COORDS : Coords := { lat := 51.5074, lng := -0.1278 }

/-- The configured geofence radius in meters. -/
noncomputable def GEOFENCE_RADIUS : ℝ := 200

/-- The three values of the `gpsStatus` state of `ClockView`. -/
inductive GpsStatus where
  | OK
  | OutOfRange
  | Searching
deriving DecidableEq, Repr

/-- The outcome of a `getCurrentPosition` request as seen by
`ClockView`: no callback has fired yet, the error callback fired, or
the success callback delivered coordinates. -/
inductive GeoOutcome where
  | pending
  | failure
  | acquired (lat lng : ℝ)

/-- The `gpsStatus` value `ClockView` holds after the location effect:
initially `useState` starts it at Searching; the geolocation error
callback sets Out of Range; the success callback compares
`getDistance(coords, OFFICE_COORDS)` against `GEOFENCE_RADIUS`. -/
noncomputable def clockGpsStatus : GeoOutcome → GpsStatus
  | GeoOutcome.pending => GpsStatus.Searching
  | GeoOutcome.failure => GpsStatus.OutOfRange
  | GeoOutcome.acquired lat lng =>
    if getDistance lat lng OFFICE_COORDS.lat OFFICE_COORDS.lng ≤ GEOFENCE_RADIUS
    then GpsStatus.OK
    else GpsStatus.OutOfRange

/-! ### A small heap model for the frame claim

`calculateShifts` reads the `logs` array held in React state. To state
that the call leaves that array untouched we model JS arrays as cells
of a store addressed by references, so that the spread copy and the
in-place `sort` of the copy are explicit heap operations. -/

/-- A store of arrays of attendance records; a reference is an index. -/
structure Store where
  arrays : List (List AttendanceLog)

/-- Dereference: the array held by `r` (empty for a dangling ref). -/
def readRef (st : Store) (r : Nat) : List AttendanceLog :=
  st.arrays.getD r []

/-- Overwrite the array held by `r` in place. -/
def writeRef (st : Store) (r : Nat) (v : List AttendanceLog) : Store :=
  { arrays := st.arrays.set r v }

/-- Allocate a fresh array holding `v`, returning its reference. -/
def allocRef (st : Store) (v : List AttendanceLog) : Store × Nat :=
  ({ arrays := st.arrays ++ [v] }, st.arrays.length)

/-- `calculateShifts` with its heap effects explicit: `[...logs]`
allocates a copy, `.sort` mutates the copy in place, and the scan only
reads; the original reference is never written. -/
def calculateShiftsImp (st : Store) (logsRef : Nat) : Store × List Shift :=
  let alloc := allocRef st (readRef st logsRef)
  let st1 := alloc.1
  let copyRef := alloc.2
  let st2 := writeRef st1 copyRef (List.insertionSort tsLE (readRef st1 copyRef))
  let sortedLogs := readRef st2 copyRef
  (st2, (scanLogs sortedLogs (fun _ => none)).reverse)

/-! ### Concrete sample data used by witnesses and counterexamples -/

/-- A sample record with the given id, employee, millisecond timestamp
and kind; the fields irrelevant to reconstruction are fixed. -/
def sampleLog (i : Int) (eid : String) (ts : Int) (ty : EventType) : AttendanceLog :=
  { id := i, employee_id := eid, employee_name := eid, timestamp := ts,
    type := ty, latitude := 0, longitude := 0, photo_path := "",
    gps_status := "OK" }

/-- IN at 09:00 (32,400,000 ms) for employee E1. -/
def logIn9 : AttendanceLog := sampleLog 1 "E1" 32400000 EventType.IN

/-- IN at 10:00 (36,000,000 ms) for employee E1. -/
def logIn10 : AttendanceLog := sampleLog 2 "E1" 36000000 EventType.IN

/-- OUT at 17:00 (61,200,000 ms) for employee E1. -/
def logOut17 : AttendanceLog := sampleLog 3 "E1" 61200000 EventType.OUT

/-- An orphan OUT at 09:00 for employee E1. -/
def orphanOut : AttendanceLog := sampleLog 4 "E1" 32400000 EventType.OUT

/-- E1 clocks in at time 0 and out at time 30; E2 clocks in at 10 and
out at 20, nested inside the E1 shift. -/
def aliceIn : AttendanceLog := sampleLog 5 "E1" 0 EventType.IN

def bobIn : AttendanceLog := sampleLog 6 "E2" 10 EventType.IN

def bobOut : AttendanceLog := sampleLog 7 "E2" 20 EventType.OUT

def aliceOut : AttendanceLog := sampleLog 8 "E1" 30 EventType.OUT

/-- An IN and an OUT for the same employee with the same timestamp. -/
def tieIn : AttendanceLog := sampleLog 9 "E1" 100 EventType.IN

def tieOut : AttendanceLog := sampleLog 10 "E1" 100 EventType.OUT

/-- A one-cell store holding a two-event log array. -/
def sampleStore : Store := { arrays := [[logIn9, logOut17]] }

/-! ### Step equations for the scan -/

theorem scanLogs_cons_in (log : AttendanceLog) (rest : List AttendanceLog)
    (m : String → Option AttendanceLog) (h : log.type = EventType.IN) :
    scanLogs (log :: rest) m =
      scanLogs rest (fun k => if k = log.employee_id then some log else m k) := by
  simp [scanLogs, h]

theorem scanLogs_cons_out_some (log : AttendanceLog) (rest : List AttendanceLog)
    (m : String → Option AttendanceLog) (inLog : AttendanceLog)
    (h : log.type = EventType.OUT) (hm : m log.employee_id = some inLog) :
    scanLogs (log :: rest) m =
      mkShift inLog log ::
        scanLogs rest (fun k => if k = log.employee_id then none else m k) := by
  simp [scanLogs, h, hm]

theorem scanLogs_cons_out_none (log : AttendanceLog) (rest : List AttendanceLog)
    (m : String → Option AttendanceLog)
    (h : log.type = EventType.OUT) (hm : m log.employee_id = none) :
    scanLogs (log :: rest) m = scanLogs rest m := by
  simp [scanLogs, h, hm]

/-! ### Scan invariants -/

/-- Every emitted shift closes at one of the scanned events. -/
theorem scanLogs_outEvent_mem : ∀ (logs : List AttendanceLog)
    (m : String → Option AttendanceLog) (s : Shift),
    s ∈ scanLogs logs m → s.outEvent ∈ logs := by
  intro logs
  induction logs with
  | nil => intro m s h; simp [scanLogs] at h
  | cons log rest ih =>
    intro m s h
    cases htype : log.type with
    | IN =>
      rw [scanLogs_cons_in log rest m htype] at h
      exact List.mem_cons_of_mem _ (ih _ s h)
    | OUT =>
      cases hm : m log.employee_id with
      | none =>
        rw [scanLogs_cons_out_none log rest m htype hm] at h
        exact List.mem_cons_of_mem _ (ih _ s h)
      | some inLog =>
        rw [scanLogs_cons_out_some log rest m inLog htype hm] at h
        rcases List.mem_cons.mp h with h1 | h2
        · subst h1; exact List.mem_cons_self _ _
        · exact List.mem_cons_of_mem _ (ih _ s h2)

/-- On a timestamp-sorted input the scan emits shifts whose OUT
timestamps are nondecreasing (each shift is emitted at its OUT event,
and the scan walks the events in ascending order). -/
theorem scanLogs_out_pairwise : ∀ (logs : List AttendanceLog)
    (m : String → Option AttendanceLog), logs.Pairwise tsLE →
    (scanLogs logs m).Pairwise
      (fun s t => s.outEvent.timestamp ≤ t.outEvent.timestamp) := by
  intro logs
  induction logs with
  | nil => intro m _; simp [scanLogs]
  | cons log rest ih =>
    intro m hp
    rcases List.pairwise_cons.mp hp with ⟨h1, h2⟩
    cases htype : log.type with
    | IN => rw [scanLogs_cons_in log rest m htype]; exact ih _ h2
    | OUT =>
      cases hm : m log.employee_id with
      | none => rw [scanLogs_cons_out_none log rest m htype hm]; exact ih _ h2
      | some inLog =>
        rw [scanLogs_cons_out_some log rest m inLog htype hm]
        refine List.pairwise_cons.mpr ⟨?_, ih _ h2⟩
        intro t ht
        exact h1 t.outEvent (scanLogs_outEvent_mem rest _ t ht)

/-- The invariant of the `lastIn` map relative to the events still to
be scanned: every pending entry is keyed by its own employee id and
precedes (in time) every remaining event. -/
def MapInv (logs : List AttendanceLog) (m : String → Option AttendanceLog) : Prop :=
  ∀ k e, m k = some e →
    e.employee_id = k ∧ ∀ f ∈ logs, e.timestamp ≤ f.timestamp

/-- Every shift emitted by the scan of a sorted list under the map
invariant pairs an IN with a later-or-equal OUT of the same employee. -/
theorem scanLogs_mem_spec : ∀ (logs : List AttendanceLog)
    (m : String → Option AttendanceLog), logs.Pairwise tsLE → MapInv logs m →
    ∀ s ∈ scanLogs logs m, ∃ a b, s = mkShift a b ∧
      a.employee_id = b.employee_id ∧ a.timestamp ≤ b.timestamp := by
  intro logs
  induction logs with
  | nil => intro m _ _ s h; simp [scanLogs] at h
  | cons log rest ih =>
    intro m hp hinv s hs
    rcases List.pairwise_cons.mp hp with ⟨h1, h2⟩
    cases htype : log.type with
    | IN =>
      rw [scanLogs_cons_in log rest m htype] at hs
      refine ih _ h2 ?_ s hs
      intro k e hke
      have hke' : (if k = log.employee_id then some log else m k) = some e := hke
      by_cases hk : k = log.employee_id
      · rw [if_pos hk] at hke'
        injection hke' with he
        subst he; subst hk
        exact ⟨rfl, fun f hf => h1 f hf⟩
      · rw [if_neg hk] at hke'
        rcases hinv k e hke' with ⟨he1, he2⟩
        exact ⟨he1, fun f hf => he2 f (List.mem_cons_of_mem _ hf)⟩
    | OUT =>
      cases hm : m log.employee_id with
      | none =>
        rw [scanLogs_cons_out_none log rest m htype hm] at hs
        refine ih _ h2 ?_ s hs
        intro k e hke
        rcases hinv k e hke with ⟨he1, he2⟩
        exact ⟨he1, fun f hf => he2 f (List.mem_cons_of_mem _ hf)⟩
      | some inLog =>
        rw [scanLogs_cons_out_some log rest m inLog htype hm] at hs
        rcases List.mem_cons.mp hs with h0 | h0
        · rcases hinv log.employee_id inLog hm with ⟨hi1, hi2⟩
          exact ⟨inLog, log, h0, hi1, hi2 log (List.mem_cons_self _ _)⟩
        · refine ih _ h2 ?_ s h0
          intro k e hke
          have hke' : (if k = log.employee_id then none else m k) = some e := hke
          by_cases hk : k = log.employee_id
          · rw [if_pos hk] at hke'
            exact Option.noConfusion hke'
          · rw [if_neg hk] at hke'
            rcases hinv k e hke' with ⟨he1, he2⟩
            exact ⟨he1, fun f hf => he2 f (List.mem_cons_of_mem _ hf)⟩

/-- Shape of every reconstructed shift: it is `mkShift a b` for an IN
event `a` and an OUT event `b` of the same employee with
`a.timestamp ≤ b.timestamp`. -/
theorem calculateShifts_mem_spec (logs : List AttendanceLog) (s : Shift)
    (hs : s ∈ calculateShifts logs) : ∃ a b, s = mkShift a b ∧
      a.employee_id = b.employee_id ∧ a.timestamp ≤ b.timestamp := by
  have hs' : s ∈ scanLogs (List.insertionSort tsLE logs) (fun _ => none) := by
    simpa [calculateShifts] using hs
  exact scanLogs_mem_spec _ _ (List.sorted_insertionSort tsLE logs)
    (fun k e h => Option.noConfusion h) s hs'

/-! ### Claims -/

/-- C1 (counterexample): the output of `calculateShifts` is not in
general ordered reverse-chronologically by the IN timestamp. With E1
IN@0/OUT@30 and E2 IN@10/OUT@20 the E1 shift (IN at 0) comes first even
though its IN is the older one. -/
theorem calculateShifts_not_ordered_by_in :
    ¬ (calculateShifts [aliceIn, bobIn, bobOut, aliceOut]).Pairwise
      (fun s t => t.inEvent.timestamp ≤ s.inEvent.timestamp) := by decide

/-- C1 (amended): the sequence returned by `calculateShifts` is ordered
reverse-chronologically by the OUT event timestamp (the shift that
completed most recently first): the scan emits shifts at their OUT
events in ascending time order and the final reverse flips that. -/
theorem calculateShifts_ordered_by_out (logs : List AttendanceLog) :
    (calculateShifts logs).Pairwise
      (fun s t => t.outEvent.timestamp ≤ s.outEvent.timestamp) := by
  have h := scanLogs_out_pairwise (List.insertionSort tsLE logs) (fun _ => none)
    (List.sorted_insertionSort tsLE logs)
  show (scanLogs (List.insertionSort tsLE logs) (fun _ => none)).reverse.Pairwise _
  exact List.pairwise_reverse.mpr h

/-- Strict ascending timestamp order, used to compare sorted runs. -/
def tsLT (a b : AttendanceLog) : Prop := a.timestamp < b.timestamp

instance : IsAntisymm AttendanceLog tsLT :=
  ⟨fun _ _ h1 h2 => absurd h1 (lt_asymm h2)⟩

/-- C2 (counterexample): permutation determinism fails on tied
timestamps. An IN and an OUT of the same employee at the same instant
pair up when the IN comes first in input order (the stable sort keeps
that order) but produce nothing when the OUT comes first. -/
theorem calculateShifts_perm_counterexample :
    [tieIn, tieOut].Perm [tieOut, tieIn] ∧
    calculateShifts [tieIn, tieOut] ≠ calculateShifts [tieOut, tieIn] := by decide

/-- C2 (amended): on inputs whose timestamps are pairwise distinct,
reconstruction depends only on the multiset of events: any two
permutations of the same events yield the same output sequence. -/
theorem calculateShifts_perm_invariant (l1 l2 : List AttendanceLog)
    (hp : l1.Perm l2) (hn : (l1.map AttendanceLog.timestamp).Nodup) :
    calculateShifts l1 = calculateShifts l2 := by
  have hn1 : l1.Pairwise (fun a b => a.timestamp ≠ b.timestamp) :=
    List.pairwise_map.mp hn
  have hn2 : l2.Pairwise (fun a b => a.timestamp ≠ b.timestamp) :=
    (hp.pairwise_iff (fun h => Ne.symm h)).mp hn1
  have key : ∀ l : List AttendanceLog,
      l.Pairwise (fun a b => a.timestamp ≠ b.timestamp) →
      (List.insertionSort tsLE l).Pairwise tsLT := by
    intro l hl
    have hsort : (List.insertionSort tsLE l).Pairwise tsLE :=
      List.sorted_insertionSort tsLE l
    have hne : (List.insertionSort tsLE l).Pairwise
        (fun a b => a.timestamp ≠ b.timestamp) :=
      ((List.perm_insertionSort tsLE l).pairwise_iff (fun h => Ne.symm h)).mpr hl
    exact (hsort.and hne).imp (fun h => lt_of_le_of_ne h.1 h.2)
  have hperm12 : (List.insertionSort tsLE l1).Perm (List.insertionSort tsLE l2) :=
    (List.perm_insertionSort tsLE l1).trans
      (hp.trans (List.perm_insertionSort tsLE l2).symm)
  have heq : List.insertionSort tsLE l1 = List.insertionSort tsLE l2 :=
    List.eq_of_perm_of_sorted hperm12 (key l1 hn1) (key l2 hn2)
  show (scanLogs (List.insertionSort tsLE l1) (fun _ => none)).reverse = _
  rw [heq]
  rfl

/-- C2 (witness): two orderings of a distinct-timestamp pair give the
same reconstruction. -/
theorem calculateShifts_perm_invariant_witness :
    [logIn9, logOut17].Perm [logOut17, logIn9] ∧
    ([logIn9, logOut17].map AttendanceLog.timestamp).Nodup ∧
    calculateShifts [logIn9, logOut17] = calculateShifts [logOut17, logIn9] :=
  ⟨List.Perm.swap logOut17 logIn9 [], by decide,
    calculateShifts_perm_invariant [logIn9, logOut17] [logOut17, logIn9]
      (List.Perm.swap logOut17 logIn9 []) (by decide)⟩

/-- C3: an IN event scanned while any pending IN exists for its
employee replaces it in the pending map without emitting a shift, and
the newer IN becomes the pending one; concretely, `[IN@09:00(E1),
IN@10:00(E1), OUT@17:00(E1)]` produces exactly one shift, paired with
the 10:00 IN. -/
theorem in_overwrites_pending :
    (∀ (log earlier : AttendanceLog) (rest : List AttendanceLog)
       (m : String → Option AttendanceLog), log.type = EventType.IN →
       m log.employee_id = some earlier →
       scanLogs (log :: rest) m =
         scanLogs rest (fun k => if k = log.employee_id then some log else m k) ∧
       (fun k => if k = log.employee_id then some log else m k) log.employee_id
         = some log) ∧
    calculateShifts [logIn9, logIn10, logOut17] = [mkShift logIn10 logOut17] :=
  ⟨fun log _ rest m htype _ =>
    ⟨scanLogs_cons_in log rest m htype, if_pos rfl⟩, rfl⟩

/-- C3 (witness): the step equation applied at the 10:00 IN arriving
while the 09:00 IN is pending. -/
theorem in_overwrites_pending_witness :
    (scanLogs (logIn10 :: [logOut17]) (fun k => if k = "E1" then some logIn9 else none) =
      scanLogs [logOut17]
        (fun k => if k = logIn10.employee_id then some logIn10
         else if k = "E1" then some logIn9 else none) ∧
     (fun k => if k = logIn10.employee_id then some logIn10
      else if k = "E1" then some logIn9 else none) logIn10.employee_id
       = some logIn10) ∧
    calculateShifts [logIn9, logIn10, logOut17] = [mkShift logIn10 logOut17] :=
  ⟨in_overwrites_pending.1 logIn10 logIn9 [logOut17]
      (fun k => if k = "E1" then some logIn9 else none) rfl rfl,
   in_overwrites_pending.2⟩

/-- C4: an OUT event scanned with no pending IN for its employee is
silently dropped: the scan state and output are exactly those of the
remaining events, and `[OUT@09:00(E1)]` alone yields zero shifts. -/
theorem orphan_out_dropped :
    (∀ (log : AttendanceLog) (rest : List AttendanceLog)
       (m : String → Option AttendanceLog), log.type = EventType.OUT →
       m log.employee_id = none →
       scanLogs (log :: rest) m = scanLogs rest m) ∧
    calculateShifts [orphanOut] = [] :=
  ⟨scanLogs_cons_out_none, rfl⟩

/-- C4 (witness): the step equation applied to an orphan OUT at the
head of the scan with the empty pending map. -/
theorem orphan_out_dropped_witness :
    scanLogs (orphanOut :: []) (fun _ => none) = scanLogs [] (fun _ => none) ∧
    calculateShifts [orphanOut] = [] :=
  ⟨orphan_out_dropped.1 orphanOut [] (fun _ => none) rfl rfl,
   orphan_out_dropped.2⟩

/-- C5: every reconstructed shift satisfies
`hours = (out timestamp - in timestamp) / (1000 * 60 * 60)` (the
millisecond difference in hours) and `isOvertime` holds exactly when
`hours > 8`; the boundary shift 09:00-17:00 has hours = 8 and is not
overtime (the threshold is strict). -/
theorem shift_duration_overtime :
    (∀ (logs : List AttendanceLog) (s : Shift), s ∈ calculateShifts logs →
       s.hours = ((s.outEvent.timestamp : ℚ) - (s.inEvent.timestamp : ℚ))
           / (1000 * 60 * 60) ∧
       (s.isOvertime = true ↔ s.hours > 8)) ∧
    (calculateShifts [logIn9, logOut17] = [mkShift logIn9 logOut17] ∧
     (mkShift logIn9 logOut17).hours = 8 ∧
     (mkShift logIn9 logOut17).isOvertime = false) := by
  constructor
  · intro logs s hs
    rcases calculateShifts_mem_spec logs s hs with ⟨a, b, rfl, -, -⟩
    exact ⟨rfl, decide_eq_true_iff⟩
  · refine ⟨rfl, ?_, ?_⟩
    · norm_num [mkShift, logIn9, logOut17, sampleLog]
    · rw [show (mkShift logIn9 logOut17).isOvertime
          = decide ((mkShift logIn9 logOut17).hours > 8) from rfl]
      rw [decide_eq_false_iff_not]
      norm_num [mkShift, logIn9, logOut17, sampleLog]

/-- C5 (witness): the duration and overtime equations hold at the
concrete 09:00-17:00 shift. -/
theorem shift_duration_overtime_witness :
    (mkShift logIn9 logOut17).hours =
      (((mkShift logIn9 logOut17).outEvent.timestamp : ℚ)
        - ((mkShift logIn9 logOut17).inEvent.timestamp : ℚ)) / (1000 * 60 * 60) ∧
    ((mkShift logIn9 logOut17).isOvertime = true ↔
      (mkShift logIn9 logOut17).hours > 8) :=
  shift_duration_overtime.1 [logIn9, logOut17] (mkShift logIn9 logOut17)
    (by
      have hm : calculateShifts [logIn9, logOut17] = [mkShift logIn9 logOut17] := rfl
      rw [hm]; exact List.mem_cons_self _ _)

/-- Math.atan2 on the positive x-axis at y = 0 is 0. -/
theorem atan2_zero_one : atan2 0 1 = 0 := by
  unfold atan2
  rw [if_pos (by norm_num : (0 : ℝ) < 1)]
  norm_num

/-- The haversine distance of a point to itself is 0: both angular
differences vanish, the intermediate term is 0, and
atan2(sqrt 0, sqrt 1) = 0. -/
theorem getDistance_self (lat lng : ℝ) : getDistance lat lng lat lng = 0 := by
  simp only [getDistance, sub_self, zero_mul, zero_div, Real.sin_zero, mul_zero,
    zero_add, add_zero, Real.sqrt_zero, sub_zero, Real.sqrt_one, atan2_zero_one]

/-- C6: after a successful location fix the clock view reports OK
exactly when the haversine distance (spherical earth, radius 6371e3
meters) to the configured office is at most the geofence radius; at
zero separation the distance is 0, so a point equal to the office
coordinate always yields OK. -/
theorem geofence_ok_iff :
    (∀ lat lng : ℝ, clockGpsStatus (GeoOutcome.acquired lat lng) = GpsStatus.OK ↔
       getDistance lat lng OFFICE_COORDS.lat OFFICE_COORDS.lng ≤ GEOFENCE_RADIUS) ∧
    (∀ lat lng : ℝ, getDistance lat lng lat lng = 0) ∧
    clockGpsStatus (GeoOutcome.acquired OFFICE_COORDS.lat OFFICE_COORDS.lng)
      = GpsStatus.OK := by
  have hiff : ∀ lat lng : ℝ,
      clockGpsStatus (GeoOutcome.acquired lat lng) = GpsStatus.OK ↔
      getDistance lat lng OFFICE_COORDS.lat OFFICE_COORDS.lng ≤ GEOFENCE_RADIUS := by
    intro lat lng
    by_cases h : getDistance lat lng OFFICE_COORDS.lat OFFICE_COORDS.lng ≤ GEOFENCE_RADIUS
    · simp [clockGpsStatus, h]
    · simp [clockGpsStatus, h]
  refine ⟨hiff, getDistance_self, ?_⟩
  rw [hiff, getDistance_self]
  norm_num [GEOFENCE_RADIUS]

/-- C7 (counterexample): when location acquisition fails (the
geolocation error callback), the clock view sets the status to Out of
Range, not Searching, although the point is absent. -/
theorem gps_failure_counterexample :
    clockGpsStatus GeoOutcome.failure = GpsStatus.OutOfRange ∧
    GpsStatus.OutOfRange ≠ GpsStatus.Searching :=
  ⟨rfl, by decide⟩

/-- C7 (amended): the status is Searching while no location callback
has fired; a failed acquisition yields Out of Range; and an acquired
point always yields OK or Out of Range — the evaluation is a total
function and never raises. -/
theorem gps_status_absent_amended :
    clockGpsStatus GeoOutcome.pending = GpsStatus.Searching ∧
    clockGpsStatus GeoOutcome.failure = GpsStatus.OutOfRange ∧
    ∀ lat lng : ℝ, clockGpsStatus (GeoOutcome.acquired lat lng) = GpsStatus.OK ∨
      clockGpsStatus (GeoOutcome.acquired lat lng) = GpsStatus.OutOfRange := by
  refine ⟨rfl, rfl, ?_⟩
  intro lat lng
  by_cases h : getDistance lat lng OFFICE_COORDS.lat OFFICE_COORDS.lng ≤ GEOFENCE_RADIUS
  · left; simp [clockGpsStatus, h]
  · right; simp [clockGpsStatus, h]

/-- C8 (counterexample): an IN and an OUT of the same employee at the
same timestamp, with the IN first in input order, pair into a shift of
duration 0 that is emitted as an ordinary shift — a non-positive
duration is silently accepted. -/
theorem zero_duration_shift_emitted :
    ¬ (∀ s ∈ calculateShifts [tieIn, tieOut], 0 < s.hours) := by
  intro h
  have hm : calculateShifts [tieIn, tieOut] = [mkShift tieIn tieOut] := rfl
  have h0 := h (mkShift tieIn tieOut) (by rw [hm]; exact List.mem_cons_self _ _)
  norm_num [mkShift, tieIn, tieOut, sampleLog] at h0

/-- C8 (amended): every emitted shift has a non-negative duration —
the paired IN never comes strictly after its OUT in the sorted scan —
but a zero duration (IN and OUT at the same instant) is emitted as an
ordinary shift rather than rejected or flagged. -/
theorem shift_duration_nonneg (logs : List AttendanceLog) (s : Shift)
    (hs : s ∈ calculateShifts logs) : 0 ≤ s.hours := by
  rcases calculateShifts_mem_spec logs s hs with ⟨a, b, rfl, -, hts⟩
  show (0 : ℚ) ≤ ((b.timestamp : ℚ) - (a.timestamp : ℚ)) / (1000 * 60 * 60)
  apply div_nonneg
  · exact sub_nonneg.mpr (by exact_mod_cast hts)
  · norm_num

/-- C8 (witness): the 09:00-17:00 shift has non-negative duration. -/
theorem shift_duration_nonneg_witness :
    0 ≤ (mkShift logIn9 logOut17).hours :=
  shift_duration_nonneg [logIn9, logOut17] (mkShift logIn9 logOut17)
    (by
      have hm : calculateShifts [logIn9, logOut17] = [mkShift logIn9 logOut17] := rfl
      rw [hm]; exact List.mem_cons_self _ _)

/-- C9: every reconstructed shift pairs an IN and an OUT of the same
employee; interleaved events of distinct employees never pair across
employees (the pending map is keyed by employee id and an OUT only pops
the entry under its own id). -/
theorem shift_same_employee (logs : List AttendanceLog) (s : Shift)
    (hs : s ∈ calculateShifts logs) :
    s.inEvent.employee_id = s.outEvent.employee_id := by
  rcases calculateShifts_mem_spec logs s hs with ⟨a, b, rfl, hemp, -⟩
  exact hemp

/-- C9 (witness): in the interleaved two-employee run E1@0 IN, E2@10
IN, E2@20 OUT, E1@30 OUT, the E2 shift pairs within E2. -/
theorem shift_same_employee_witness :
    (mkShift bobIn bobOut).inEvent.employee_id
      = (mkShift bobIn bobOut).outEvent.employee_id :=
  shift_same_employee [aliceIn, bobIn, bobOut, aliceOut] (mkShift bobIn bobOut)
    (by
      have hm : calculateShifts [aliceIn, bobIn, bobOut, aliceOut]
          = [mkShift aliceIn aliceOut, mkShift bobIn bobOut] := rfl
      rw [hm]
      exact List.mem_cons_of_mem _ (List.mem_cons_self _ _))

/-- C10: reconstruction does not modify its input array: run over an
explicit store, the call allocates a copy for the spread, sorts only
the copy in place, and returns the shifts of the value read from the
input reference — the input cell is unchanged. -/
theorem calculateShiftsImp_frame (st : Store) (r : Nat)
    (hr : r < st.arrays.length) :
    readRef (calculateShiftsImp st r).1 r = readRef st r ∧
    (calculateShiftsImp st r).2 = calculateShifts (readRef st r) := by
  have hne : st.arrays.length ≠ r := Nat.ne_of_gt hr
  have hv : (st.arrays ++ [readRef st r]).getD st.arrays.length [] = readRef st r := by
    rw [List.getD_eq_getElem?_getD, List.getElem?_concat_length]
    rfl
  constructor
  · show ((st.arrays ++ [readRef st r]).set st.arrays.length _).getD r [] = _
    rw [List.getD_eq_getElem?_getD, List.getElem?_set_ne hne,
      List.getElem?_append_left hr]
    rw [readRef, List.getD_eq_getElem?_getD]
  · show (scanLogs (((st.arrays ++ [readRef st r]).set st.arrays.length
        (List.insertionSort tsLE ((st.arrays ++ [readRef st r]).getD
          st.arrays.length []))).getD st.arrays.length []) (fun _ => none)).reverse = _
    rw [hv, List.getD_eq_getElem?_getD, List.getElem?_set_self
      (by simp [List.length_append])]
    rfl

/-- C10 (witness): the frame property at a one-cell store. -/
theorem calculateShiftsImp_frame_witness :
    readRef (calculateShiftsImp sampleStore 0).1 0 = readRef sampleStore 0 ∧
    (calculateShiftsImp sampleStore 0).2 = calculateShifts (readRef sampleStore 0) :=
  calculateShiftsImp_frame sampleStore 0 (by decide)

end Chronos
